import Mathlib

/-!
Verification of the drink management system (`drinks.py`).

The Python code defines a base class `Drink` (fields `volume`, `expiration`)
with subclasses `Juice`, `DataCola`, `EnergyDrink`, `Water`, and a
`VendingMachine` container holding a list of drinks bounded by `size`.
All subclasses inherit directly from `Drink` (a flat hierarchy); we embed a
drink as a record with a variant payload carrying the subclass-specific
attributes, and the machine as a record with a list of drinks, a size and a
name. Python integers are modelled as `Int`; Python `list.pop(i)` is
`List.eraseIdx`; methods that print and return become pure functions (the
console output is ignored, the returned value and the state change are kept).
-/

namespace Drinks

/-- The subclass-specific attributes: which concrete class a drink object
belongs to, together with the extra fields that class adds
(`fruit_type` for `Juice`, `container` for `DataCola`,
`caffeine_mg`/`sugar_free` for `EnergyDrink`, `sparkling` for `Water`). -/
inductive Payload where
  | base : Payload
  | juice : String → Payload
  | cola : String → Payload
  | energy : Int → Bool → Payload
  | water : Bool → Payload
deriving DecidableEq

/-- A drink object: the common fields of class `Drink` plus the
subclass payload. -/
structure Drink where
  payload : Payload
  volume : Int
  expiration : Int
deriving DecidableEq

/-- The concrete (runtime) class of a drink object. -/
inductive DrinkClass where
  | drink : DrinkClass
  | juice : DrinkClass
  | dataCola : DrinkClass
  | energyDrink : DrinkClass
  | water : DrinkClass
deriving DecidableEq

/-- `drink.__class__`: the concrete class of the object. -/
def Drink.className (d : Drink) : DrinkClass :=
  match d.payload with
  | .base => .drink
  | .juice _ => .juice
  | .cola _ => .dataCola
  | .energy _ _ => .energyDrink
  | .water _ => .water

/-- `Drink.__init__(volume, expiration)`: stores both arguments verbatim. -/
def Drink.init (volume : Int) (expiration : Int) : Drink :=
  ⟨.base, volume, expiration⟩

/-- `Juice.DEFAULT_EXPIRATION = 7`. -/
def Juice.DEFAULT_EXPIRATION : Int := 7

/-- `Juice.__init__(volume, fruit_type="Mixed")`: expiration fixed to 7. -/
def Juice.init (volume : Int) (fruit_type : String) : Drink :=
  ⟨.juice fruit_type, volume, Juice.DEFAULT_EXPIRATION⟩

/-- `DataCola.CONTAINER_SPECS`: container kind ↦ (volume, expiration). -/
def DataCola.CONTAINER_SPECS : List (String × Int × Int) :=
  [("can", 330, 60), ("bottle", 500, 30)]

/-- `DataCola.__init__(container)`: looks the kind up in `CONTAINER_SPECS`
and raises `ValueError` (modelled as `Except.error`) when it is absent. -/
def DataCola.init (container : String) : Except String Drink :=
  match DataCola.CONTAINER_SPECS.lookup container with
  | some (volume, expiration) => .ok ⟨.cola container, volume, expiration⟩
  | none => .error ("Invalid container type: " ++ container ++ ". Use can or bottle.")

/-- `EnergyDrink.__init__(volume, expiration, caffeine_mg=80, sugar_free=False)`:
stores all arguments verbatim. -/
def EnergyDrink.init (volume : Int) (expiration : Int) (caffeine_mg : Int)
    (sugar_free : Bool) : Drink :=
  ⟨.energy caffeine_mg sugar_free, volume, expiration⟩

/-- `Water.DEFAULT_EXPIRATION = 365`. -/
def Water.DEFAULT_EXPIRATION : Int := 365

/-- `Water.__init__(volume, sparkling=False)`: expiration fixed to 365. -/
def Water.init (volume : Int) (sparkling : Bool) : Drink :=
  ⟨.water sparkling, volume, Water.DEFAULT_EXPIRATION⟩

/-- `caffeine_mg` attribute (meaningful on `EnergyDrink` objects). -/
def Drink.caffeine_mg (d : Drink) : Int :=
  match d.payload with
  | .energy c _ => c
  | _ => 0

/-- `sugar_free` attribute (meaningful on `EnergyDrink` objects). -/
def Drink.sugar_free (d : Drink) : Bool :=
  match d.payload with
  | .energy _ s => s
  | _ => false

/-- `container` attribute (meaningful on `DataCola` objects). -/
def Drink.container (d : Drink) : String :=
  match d.payload with
  | .cola c => c
  | _ => ""

/-- `Drink.next_day()`: decrements `expiration` by 1 when it is positive,
otherwise only prints a warning (modelled as leaving the drink unchanged). -/
def Drink.next_day (d : Drink) : Drink :=
  if d.expiration > 0 then { d with expiration := d.expiration - 1 } else d

/-- `Drink.is_expired()`: `expiration <= 0`. -/
def Drink.is_expired (d : Drink) : Bool :=
  d.expiration ≤ 0

/-- `isinstance(d, C)` for this flat hierarchy: true when `C` is the base
class `Drink`, or when the concrete class of `d` is exactly `C`. -/
def isinstance (d : Drink) (c : DrinkClass) : Bool :=
  decide (c = DrinkClass.drink ∨ d.className = c)

/-- The `VendingMachine`: list of contained drinks, capacity, display name. -/
structure VendingMachine where
  content : List Drink
  size : Int
  name : String
deriving DecidableEq

/-- `VendingMachine.__init__(size, name)`: starts empty. -/
def VendingMachine.init (size : Int) (name : String) : VendingMachine :=
  ⟨[], size, name⟩

/-- `VendingMachine.add(drink)`: appends when `len(content) < size` and
returns `True`; otherwise returns `False` without mutating. -/
def VendingMachine.add (m : VendingMachine) (d : Drink) : VendingMachine × Bool :=
  if (m.content.length : Int) < m.size then
    ({ m with content := m.content ++ [d] }, true)
  else
    (m, false)

/-- `VendingMachine.remove(i)`: pops and returns the drink at index `i`
when `0 <= i < len(content)`; otherwise returns `None` (modelled as
`Option.none`) and leaves the machine unchanged. -/
def VendingMachine.remove (m : VendingMachine) (i : Int) : VendingMachine × Option Drink :=
  if 0 ≤ i ∧ i < (m.content.length : Int) then
    ({ m with content := m.content.eraseIdx i.toNat }, m.content[i.toNat]?)
  else
    (m, none)

/-- The backward loop of `VendingMachine.verify()`: with fuel `k`, the
indices `k-1, k-2, ..., 0` remain to be checked; an expired drink at the
current index is popped and appended to the accumulator. -/
def verifyGo : Nat → List Drink → List Drink → List Drink × List Drink
  | 0, content, acc => (content, acc)
  | k + 1, content, acc =>
    match content[k]? with
    | some d =>
      if d.is_expired then verifyGo k (content.eraseIdx k) (acc ++ [d])
      else verifyGo k content acc
    | none => verifyGo k content acc

/-- `VendingMachine.verify()`: iterates backwards over the content, pops
every expired drink, and returns the list of popped drinks. -/
def VendingMachine.verify (m : VendingMachine) : VendingMachine × List Drink :=
  let r := verifyGo m.content.length m.content []
  ({ m with content := r.1 }, r.2)

/-- `VendingMachine.next_day()`: calls `next_day()` on every contained
drink, in index order; removes nothing. -/
def VendingMachine.next_day (m : VendingMachine) : VendingMachine :=
  { m with content := m.content.map Drink.next_day }

/-- `VendingMachine.find_by_type(drink_type)`: filters the content with
`isinstance`, preserving order. -/
def VendingMachine.find_by_type (m : VendingMachine) (c : DrinkClass) : List Drink :=
  m.content.filter (fun d => isinstance d c)

/-- `VendingMachine.total_volume()`: sum of the volumes. -/
def VendingMachine.total_volume (m : VendingMachine) : Int :=
  (m.content.map Drink.volume).sum

/-- The machine states reachable from a freshly constructed machine by the
mutating operations `add`, `remove`, `verify` and `next_day` (the queries
`get_inventory`, `find_by_type`, `total_volume`, `__len__` do not mutate). -/
inductive Reachable : VendingMachine → Prop where
  | init (size : Int) (name : String) : Reachable (VendingMachine.init size name)
  | add (m : VendingMachine) (d : Drink) : Reachable m → Reachable (m.add d).1
  | remove (m : VendingMachine) (i : Int) : Reachable m → Reachable (m.remove i).1
  | verify (m : VendingMachine) : Reachable m → Reachable (m.verify).1
  | next_day (m : VendingMachine) : Reachable m → Reachable m.next_day

/-! ### Characterisation of the backward eviction loop -/

/-- Each element of a list lands in the sublist of elements satisfying `p`
or in the sublist of the others; the two lengths add up. -/
theorem length_filter_add_length_filter_not (l : List Drink) (p : Drink → Bool) :
    (l.filter p).length + (l.filter (fun d => !p d)).length = l.length := by
  induction l with
  | nil => simp
  | cons a t ih =>
    by_cases h : p a = true
    · simp [List.filter_cons, h]
      omega
    · simp only [Bool.not_eq_true] at h
      simp [List.filter_cons, h]
      omega

/-- What the backward loop computes on the prefix it still has to scan:
with fuel `k ≤ length`, the survivors of the first `k` positions are the
non-expired ones (in order) and the popped drinks are the expired ones of
that prefix, appended to the accumulator in reverse index order. -/
theorem verifyGo_eq (k : Nat) : ∀ (content acc : List Drink), k ≤ content.length →
    verifyGo k content acc =
      ((content.take k).filter (fun d => !d.is_expired) ++ content.drop k,
       acc ++ ((content.take k).filter (fun d => d.is_expired)).reverse) := by
  induction k with
  | zero =>
    intro content acc h
    simp [verifyGo]
  | succ k ih =>
    intro content acc h
    have hk : k < content.length := h
    have hget : content[k]? = some content[k] := List.getElem?_eq_getElem hk
    rw [verifyGo, hget]
    dsimp only
    by_cases hexp : content[k].is_expired = true
    · rw [if_pos hexp]
      have hlen : k ≤ (content.eraseIdx k).length := by
        have := List.length_eraseIdx_add_one hk
        omega
      rw [ih (content.eraseIdx k) (acc ++ [content[k]]) hlen]
      have htd : content.eraseIdx k = content.take k ++ content.drop (k + 1) :=
        List.eraseIdx_eq_take_drop_succ content k
      have hlen_take : (content.take k).length = k := List.length_take_of_le (le_of_lt hk)
      have htake : (content.eraseIdx k).take k = content.take k := by
        rw [htd, List.take_append_eq_append_take, hlen_take]
        simp [List.take_take]
      have hdrop : (content.eraseIdx k).drop k = content.drop (k + 1) := by
        rw [htd, List.drop_append_eq_append_drop, hlen_take]
        simp [List.drop_take]
      rw [htake, hdrop, List.take_succ, hget]
      simp only [Option.toList_some, List.filter_append, List.filter_cons, hexp,
        Bool.not_true, List.filter_nil, List.reverse_append, List.append_assoc]
      simp
    · rw [if_neg hexp]
      rw [ih content acc (le_of_lt hk)]
      simp only [Bool.not_eq_true] at hexp
      have hdropk : content.drop k = content[k] :: content.drop (k + 1) :=
        List.drop_eq_getElem_cons hk
      rw [List.take_succ, hget]
      simp only [Option.toList_some, List.filter_append, List.filter_cons, hexp,
        Bool.not_false, List.filter_nil, List.reverse_append, hdropk]
      simp

/-- `verify()` in closed form: the surviving content is the filter of the
non-expired items (order preserved) and the returned list is the expired
items in reverse index order. -/
theorem verify_eq (m : VendingMachine) :
    m.verify = ({ m with content := m.content.filter (fun d => !d.is_expired) },
                (m.content.filter (fun d => d.is_expired)).reverse) := by
  have h := verifyGo_eq m.content.length m.content [] le_rfl
  simp only [List.take_length, List.drop_length, List.append_nil, List.nil_append] at h
  simp [VendingMachine.verify, h]

/-! ### Claim theorems -/

/-- C9: for every drink of every variant, `is_expired()` is true iff
`expiration <= 0`; it is a pure predicate (a function of the drink value,
modifying nothing). -/
theorem is_expired_spec (d : Drink) : d.is_expired = true ↔ d.expiration ≤ 0 := by
  simp [Drink.is_expired]

/-- C7: `next_day()` (the aging step) decrements `expiration` by exactly 1
when it is positive and otherwise leaves the drink unchanged; from a
non-negative `expiration` it never goes below 0, and once it is 0, any
number of further calls leave the drink at 0. -/
theorem drink_next_day_spec (d : Drink) :
    (0 < d.expiration → d.next_day.expiration = d.expiration - 1) ∧
    (d.expiration ≤ 0 → d.next_day = d) ∧
    (0 ≤ d.expiration → 0 ≤ d.next_day.expiration) ∧
    (∀ n : Nat, d.expiration = 0 → Drink.next_day^[n] d = d) := by
  refine ⟨?_, ?_, ?_, ?_⟩
  · intro h
    simp [Drink.next_day, h]
  · intro h
    simp [Drink.next_day]
    omega
  · intro h
    by_cases hp : 0 < d.expiration
    · simp [Drink.next_day, hp]
      omega
    · simp [Drink.next_day, hp]
      omega
  · intro n h
    induction n with
    | zero => rfl
    | succ k ih =>
      rw [Function.iterate_succ_apply, show d.next_day = d by simp [Drink.next_day]; omega, ih]

/-- C7 witness: aging a fresh drink with 1 day left brings it to 0;
three further calls on a drink already at 0 change nothing. -/
theorem drink_next_day_spec_witness :
    ((Drink.init 500 1).next_day.expiration = (Drink.init 500 1).expiration - 1) ∧
    Drink.next_day^[3] (Drink.init 500 0) = Drink.init 500 0 :=
  ⟨(drink_next_day_spec (Drink.init 500 1)).1 (by decide),
   (drink_next_day_spec (Drink.init 500 0)).2.2.2 3 (by decide)⟩

/-- C8: `DataCola` construction with kind `can` yields volume 330 and
expiration 60, with kind `bottle` yields volume 500 and expiration 30, and
with any other kind fails with an error (never a silent default). -/
theorem dataCola_init_spec (c : String) :
    (c = "can" → ∃ d, DataCola.init c = Except.ok d ∧
      d.volume = 330 ∧ d.expiration = 60 ∧ d.container = "can") ∧
    (c = "bottle" → ∃ d, DataCola.init c = Except.ok d ∧
      d.volume = 500 ∧ d.expiration = 30 ∧ d.container = "bottle") ∧
    (c ≠ "can" → c ≠ "bottle" → ∃ msg, DataCola.init c = Except.error msg) := by
  refine ⟨?_, ?_, ?_⟩
  · rintro rfl
    exact ⟨_, rfl, rfl, rfl, rfl⟩
  · rintro rfl
    exact ⟨_, rfl, rfl, rfl, rfl⟩
  · intro h1 h2
    refine ⟨"Invalid container type: " ++ c ++ ". Use can or bottle.", ?_⟩
    have hc1 : (c == "can") = false := beq_eq_false_iff_ne.mpr h1
    have hc2 : (c == "bottle") = false := beq_eq_false_iff_ne.mpr h2
    simp [DataCola.init, DataCola.CONTAINER_SPECS, List.lookup, hc1, hc2]

/-- C8 witness: the three concrete constructions of the end-to-end
scenario: `can` and `bottle` succeed with the specified fields, `large`
fails. -/
theorem dataCola_init_spec_witness :
    (∃ d, DataCola.init "can" = Except.ok d ∧
      d.volume = 330 ∧ d.expiration = 60 ∧ d.container = "can") ∧
    (∃ d, DataCola.init "bottle" = Except.ok d ∧
      d.volume = 500 ∧ d.expiration = 30 ∧ d.container = "bottle") ∧
    (∃ msg, DataCola.init "large" = Except.error msg) :=
  ⟨(dataCola_init_spec "can").1 rfl,
   (dataCola_init_spec "bottle").2.1 rfl,
   (dataCola_init_spec "large").2.2 (by decide) (by decide)⟩

/-- C10: `Drink` and `EnergyDrink` construction performs no validation and
stores every argument verbatim, for every integer volume and expiration
including zero and negative values; a drink constructed with
`expiration <= 0` is expired immediately. (Both constructors, like those of
`Juice` and `Water`, are total functions into `Drink`; only `DataCola.init`
returns `Except` and can fail.) -/
theorem construction_no_validation (v e cm : Int) (sf : Bool) :
    (Drink.init v e).volume = v ∧ (Drink.init v e).expiration = e ∧
    (EnergyDrink.init v e cm sf).volume = v ∧
    (EnergyDrink.init v e cm sf).expiration = e ∧
    (EnergyDrink.init v e cm sf).caffeine_mg = cm ∧
    (EnergyDrink.init v e cm sf).sugar_free = sf ∧
    (e ≤ 0 → (Drink.init v e).is_expired = true ∧
      (EnergyDrink.init v e cm sf).is_expired = true) := by
  refine ⟨rfl, rfl, rfl, rfl, rfl, rfl, fun h => ⟨?_, ?_⟩⟩
  · simpa [Drink.init, Drink.is_expired] using h
  · simpa [EnergyDrink.init, Drink.is_expired] using h

/-- C10 witness: a generic drink and an energy drink constructed with
volume 0 and expiration -5 store those values and are expired at once. -/
theorem construction_no_validation_witness :
    (Drink.init 0 (-5)).expiration = -5 ∧
    (Drink.init 0 (-5)).is_expired = true ∧
    (EnergyDrink.init 0 (-5) 0 false).is_expired = true :=
  ⟨(construction_no_validation 0 (-5) 0 false).2.1,
   ((construction_no_validation 0 (-5) 0 false).2.2.2.2.2.2 (by decide)).1,
   ((construction_no_validation 0 (-5) 0 false).2.2.2.2.2.2 (by decide)).2⟩

/-- C3: `add(drink)` appends and returns true when the machine has room
(`len(content) < size`), leaving every prior item in place; on a full
machine it returns false and changes nothing. It is a total function,
so it never raises. -/
theorem add_spec (m : VendingMachine) (d : Drink) :
    ((m.content.length : Int) < m.size →
      (m.add d).2 = true ∧
      (m.add d).1.content = m.content ++ [d] ∧
      (m.add d).1.content.length = m.content.length + 1 ∧
      (m.add d).1.size = m.size ∧ (m.add d).1.name = m.name) ∧
    (m.size ≤ (m.content.length : Int) →
      (m.add d).2 = false ∧ (m.add d).1 = m) := by
  constructor
  · intro h
    simp [VendingMachine.add, h]
  · intro h
    simp [VendingMachine.add, not_lt.mpr h]

/-- C3 witness: adding to an empty machine of size 1 succeeds and appends;
adding to a machine of size 0 fails and leaves it unchanged. -/
theorem add_spec_witness :
    (((VendingMachine.init 1 "A").add (Drink.init 500 10)).2 = true ∧
      ((VendingMachine.init 1 "A").add (Drink.init 500 10)).1.content =
        (VendingMachine.init 1 "A").content ++ [Drink.init 500 10]) ∧
    (((VendingMachine.init 0 "B").add (Drink.init 500 10)).2 = false ∧
      ((VendingMachine.init 0 "B").add (Drink.init 500 10)).1 =
        VendingMachine.init 0 "B") :=
  ⟨⟨((add_spec (VendingMachine.init 1 "A") (Drink.init 500 10)).1 (by decide)).1,
    ((add_spec (VendingMachine.init 1 "A") (Drink.init 500 10)).1 (by decide)).2.1⟩,
   ⟨((add_spec (VendingMachine.init 0 "B") (Drink.init 500 10)).2 (by decide)).1,
    ((add_spec (VendingMachine.init 0 "B") (Drink.init 500 10)).2 (by decide)).2⟩⟩

/-- C4: `remove(i)` with `0 <= i < len(content)` removes and returns
exactly the item at index `i` (the survivors are the items before `i`
followed by the items after `i`, in order) and decrements the length by 1;
with any other index it returns `None` and changes nothing. -/
theorem remove_spec (m : VendingMachine) (i : Int) :
    (0 ≤ i → i < (m.content.length : Int) →
      (m.remove i).2 = m.content[i.toNat]? ∧
      (m.remove i).1.content = m.content.take i.toNat ++ m.content.drop (i.toNat + 1) ∧
      (m.remove i).1.content.length + 1 = m.content.length ∧
      (m.remove i).1.size = m.size ∧ (m.remove i).1.name = m.name) ∧
    (¬(0 ≤ i ∧ i < (m.content.length : Int)) →
      (m.remove i).2 = none ∧ (m.remove i).1 = m) := by
  constructor
  · intro h0 hlt
    have hn : i.toNat < m.content.length := by omega
    refine ⟨?_, ?_, ?_, ?_, ?_⟩
    · simp [VendingMachine.remove, h0, hlt]
    · simp [VendingMachine.remove, h0, hlt, List.eraseIdx_eq_take_drop_succ]
    · simp [VendingMachine.remove, h0, hlt]
      rw [List.length_eraseIdx_add_one hn]
    · simp [VendingMachine.remove, h0, hlt]
    · simp [VendingMachine.remove, h0, hlt]
  · intro h
    simp [VendingMachine.remove, h]

/-- C4 witness: on a two-item machine, `remove 0` returns the first item
and keeps the second; `remove 5` and `remove (-1)` return nothing and
change nothing. -/
theorem remove_spec_witness :
    ((VendingMachine.mk [Drink.init 1 1, Drink.init 2 2] 5 "W").remove 0).2 =
        (VendingMachine.mk [Drink.init 1 1, Drink.init 2 2] 5 "W").content[(0 : Int).toNat]? ∧
    (((VendingMachine.mk [Drink.init 1 1, Drink.init 2 2] 5 "W").remove 5).2 = none ∧
      ((VendingMachine.mk [Drink.init 1 1, Drink.init 2 2] 5 "W").remove 5).1 =
        VendingMachine.mk [Drink.init 1 1, Drink.init 2 2] 5 "W") ∧
    ((VendingMachine.mk [Drink.init 1 1, Drink.init 2 2] 5 "W").remove (-1)).2 = none :=
  ⟨((remove_spec (VendingMachine.mk [Drink.init 1 1, Drink.init 2 2] 5 "W") 0).1
      (by decide) (by decide)).1,
   (remove_spec (VendingMachine.mk [Drink.init 1 1, Drink.init 2 2] 5 "W") 5).2 (by decide),
   ((remove_spec (VendingMachine.mk [Drink.init 1 1, Drink.init 2 2] 5 "W") (-1)).2
      (by decide)).1⟩

/-- C5: the machine's `next_day()` ages every contained drink in index
order and removes nothing: the content afterwards is exactly the original
items, each aged once, in the original order, with the count unchanged;
in particular every already-expired item stays in the machine unchanged
(eviction only happens in `verify()`). -/
theorem machine_next_day_spec (m : VendingMachine) :
    m.next_day.content = m.content.map Drink.next_day ∧
    m.next_day.content.length = m.content.length ∧
    m.next_day.size = m.size ∧ m.next_day.name = m.name ∧
    (∀ d ∈ m.content, d.is_expired = true → d.next_day = d ∧ d ∈ m.next_day.content) := by
  refine ⟨rfl, by simp [VendingMachine.next_day], rfl, rfl, ?_⟩
  intro d hd hexp
  have hfix : d.next_day = d := by
    simp [Drink.next_day]
    simp [Drink.is_expired] at hexp
    omega
  refine ⟨hfix, ?_⟩
  simp only [VendingMachine.next_day]
  exact hfix ▸ List.mem_map_of_mem Drink.next_day hd

/-- C5 witness: a machine holding one expired drink and one fresh drink
keeps both through `next_day()`, the expired one unchanged. -/
theorem machine_next_day_spec_witness :
    (VendingMachine.mk [Drink.init 9 0, Drink.init 7 3] 4 "W").next_day.content.length =
      (VendingMachine.mk [Drink.init 9 0, Drink.init 7 3] 4 "W").content.length ∧
    (Drink.init 9 0).next_day = Drink.init 9 0 ∧
    Drink.init 9 0 ∈ (VendingMachine.mk [Drink.init 9 0, Drink.init 7 3] 4 "W").next_day.content :=
  ⟨(machine_next_day_spec (VendingMachine.mk [Drink.init 9 0, Drink.init 7 3] 4 "W")).2.1,
   ((machine_next_day_spec (VendingMachine.mk [Drink.init 9 0, Drink.init 7 3] 4 "W")).2.2.2.2
      (Drink.init 9 0) (by simp) (by decide)).1,
   ((machine_next_day_spec (VendingMachine.mk [Drink.init 9 0, Drink.init 7 3] 4 "W")).2.2.2.2
      (Drink.init 9 0) (by simp) (by decide)).2⟩

/-- C6 counterexample: `find_by_type` matches with `isinstance`, so
querying a machine that holds one `Juice` with the base class `Drink`
returns that `Juice` — an item whose concrete variant is not the generic
tag — instead of returning only generic items (which would be none here). -/
theorem find_by_type_counterexample :
    (VendingMachine.mk [Juice.init 500 "Orange"] 5 "M").find_by_type DrinkClass.drink =
      [Juice.init 500 "Orange"] ∧
    (Juice.init 500 "Orange").className ≠ DrinkClass.drink ∧
    (VendingMachine.mk [Juice.init 500 "Orange"] 5 "M").content.filter
      (fun d => decide (d.className = DrinkClass.drink)) = [] := by
  decide

/-- C6 amended: `find_by_type(C)` is an order-preserving filter by
`isinstance`; for a subclass tag `C` it returns exactly the items whose
concrete variant is `C`, but for the base tag `Drink` it returns every
item of the machine. -/
theorem find_by_type_spec (m : VendingMachine) (c : DrinkClass) :
    (c ≠ DrinkClass.drink →
      m.find_by_type c = m.content.filter (fun d => decide (d.className = c))) ∧
    (c = DrinkClass.drink → m.find_by_type c = m.content) := by
  constructor
  · intro h
    simp only [VendingMachine.find_by_type, isinstance]
    congr 1
    funext d
    simp [h]
  · rintro rfl
    simp [VendingMachine.find_by_type, isinstance]

/-- C6 witness: on a machine holding a `Juice` and a generic drink,
querying with the `Juice` tag returns exactly the juice, and querying with
the base tag returns the whole content. -/
theorem find_by_type_spec_witness :
    (VendingMachine.mk [Juice.init 5 "Apple", Drink.init 3 3] 5 "M").find_by_type
        DrinkClass.juice =
      (VendingMachine.mk [Juice.init 5 "Apple", Drink.init 3 3] 5 "M").content.filter
        (fun d => decide (d.className = DrinkClass.juice)) ∧
    (VendingMachine.mk [Juice.init 5 "Apple", Drink.init 3 3] 5 "M").find_by_type
        DrinkClass.drink =
      (VendingMachine.mk [Juice.init 5 "Apple", Drink.init 3 3] 5 "M").content :=
  ⟨(find_by_type_spec (VendingMachine.mk [Juice.init 5 "Apple", Drink.init 3 3] 5 "M")
      DrinkClass.juice).1 (by decide),
   (find_by_type_spec (VendingMachine.mk [Juice.init 5 "Apple", Drink.init 3 3] 5 "M")
      DrinkClass.drink).2 rfl⟩

/-- C1: `verify()` removes exactly the expired items: the survivors are
exactly the originally non-expired items in their original relative order,
none of them is expired, the new count is the original count minus the
number of expired items, and the returned list holds exactly the removed
expired items (here even as a multiset — it is their reverse-index-order
permutation). -/
theorem verify_spec (m : VendingMachine) :
    (m.verify).1.content = m.content.filter (fun d => !d.is_expired) ∧
    (m.verify).1.content.length =
      m.content.length - (m.content.filter (fun d => d.is_expired)).length ∧
    (∀ d ∈ (m.verify).1.content, d.is_expired = false) ∧
    (m.verify).2.Perm (m.content.filter (fun d => d.is_expired)) ∧
    (m.verify).1.size = m.size := by
  rw [verify_eq]
  refine ⟨rfl, ?_, ?_, List.reverse_perm _, rfl⟩
  · have := length_filter_add_length_filter_not m.content (fun d => d.is_expired)
    simp only at this ⊢
    omega
  · intro d hd
    have := List.of_mem_filter hd
    simpa using this

/-- C2: a machine constructed with a positive capacity satisfies
`len(content) <= size` initially, and the bound is preserved by every
operation, so it holds in every reachable state (the read-only queries do
not change the state at all). -/
theorem capacity_invariant (m : VendingMachine) (h : Reachable m)
    (hpos : 0 < m.size) : (m.content.length : Int) ≤ m.size := by
  revert hpos
  induction h with
    | init s n =>
      intro hp
      simp [VendingMachine.init] at hp ⊢
      omega
    | add m d hm ih =>
      intro hp
      by_cases hroom : (m.content.length : Int) < m.size
      · simp only [VendingMachine.add, if_pos hroom]
        simp
        omega
      · simp only [VendingMachine.add, if_neg hroom]
        exact ih (by simpa [VendingMachine.add, if_neg hroom] using hp)
    | remove m i hm ih =>
      intro hp
      by_cases hidx : 0 ≤ i ∧ i < (m.content.length : Int)
      · have hsz : (m.remove i).1.size = m.size := by
          simp [VendingMachine.remove, hidx]
        have hlt : ((m.remove i).1.content.length : Int) ≤ (m.content.length : Int) := by
          simp only [VendingMachine.remove, if_pos hidx]
          have := List.length_eraseIdx_add_one (l := m.content) (i := i.toNat) (by omega)
          simp
          omega
        have := ih (by rw [hsz] at hp; exact hp)
        rw [hsz] at *
        omega
      · simpa [VendingMachine.remove, hidx] using
          ih (by simpa [VendingMachine.remove, hidx] using hp)
    | verify m hm ih =>
      intro hp
      rw [verify_eq] at hp ⊢
      simp only at hp ⊢
      have hle : (m.content.filter (fun d => !d.is_expired)).length ≤ m.content.length :=
        List.length_filter_le _ _
      have := ih hp
      omega
    | next_day m hm ih =>
      intro hp
      simp only [VendingMachine.next_day] at hp ⊢
      simp only [List.length_map]
      exact ih hp

/-- C2 witness: after constructing a machine of capacity 2 and adding one
drink, the reached state still satisfies the bound. -/
theorem capacity_invariant_witness :
    ((((VendingMachine.init 2 "Campus").add (Drink.init 350 5)).1.content.length : Int) ≤
      ((VendingMachine.init 2 "Campus").add (Drink.init 350 5)).1.size) :=
  capacity_invariant _
    (Reachable.add (VendingMachine.init 2 "Campus") (Drink.init 350 5)
      (Reachable.init 2 "Campus"))
    (by decide)

end Drinks
